import Mathlib

/-!
# black-zap: log-core composition and the gorm trace adapter

A shallow embedding of `logger/logger.go`, `report/report.go` and
`gormlogger/logger.go`.

* A `*Conf` is an `Option Conf` (`none` is the nil pointer); the variadic
  `configs ...*Conf` is a `List (Option Conf)`.
* A `zapcore.Core` built by `zapcore.NewCore(enc, ws, enab)` is the triple of its
  three arguments; `zapcore.NewTee` keeps the slice of cores in order.
* `panic` is `Except.error` carrying the panic message.
* `zapcore.Level` and gorm's `LogLevel` are integers; only comparisons are made
  on them, so no wrap-around is involved.
* The call stack seen by `runtime.Caller` is the list of the files of its frames,
  index 0 being the function that calls `runtime.Caller`.
* Instants are integers (nanoseconds); a `time.Duration` is an `int64`, and
  `time.Since` saturates at its two ends.
* Where a claim is about what a call leaves unchanged, the method is also given as a
  step on a memory holding the caller's variable, the heap and the package variable.
-/

namespace BlackZap

/-! ## Constants of the libraries the code compares against -/

namespace zapcore

/-- The zap severity `zapcore.DebugLevel`. -/
def DebugLevel : Int := -1
/-- The zap severity `zapcore.InfoLevel`. -/
def InfoLevel : Int := 0
/-- The zap severity `zapcore.WarnLevel`. -/
def WarnLevel : Int := 1
/-- The zap severity `zapcore.ErrorLevel`. -/
def ErrorLevel : Int := 2

end zapcore

namespace gormLogger

/-- The gorm log level `logger.Silent`. -/
def Silent : Int := 1
/-- The gorm log level `logger.Error`. -/
def Error : Int := 2
/-- The gorm log level `logger.Warn`. -/
def Warn : Int := 3
/-- The gorm log level `logger.Info`. -/
def Info : Int := 4

end gormLogger

/-! ## package report -/

namespace report

/-- A value of the field `CallBack func(level string, message string)`: either the
empty closure `getLogCore` installs for a nil field, or a function supplied by the
user, identified by a number. -/
inductive CallBack where
  | noop
  | user (id : Nat)
  deriving DecidableEq, Repr

/-- The struct `Report`: an `io.Writer` holding a level tag and a callback. -/
structure Report where
  level : String
  cb : CallBack
  deriving DecidableEq, Repr

/-- The factory `IoWrite`. -/
def IoWrite (level : String) (cb : CallBack) : Report :=
  { level := level, cb := cb }

end report

/-! ## package logger -/

namespace logger

/-- The variable `Level`: the level strings. -/
structure LevelNames where
  Debug : String
  Info : String
  Warn : String
  Error : String

/-- The value of the variable `Level`. -/
def Level : LevelNames :=
  { Debug := "debug", Info := "info", Warn := "warn", Error := "error" }

/-- The variable `Type`: the destination kinds. -/
structure TypeNames where
  STD : String
  FILE : String
  REPORT : String

/-- The value of the variable `Type`. -/
def Type_ : TypeNames :=
  { STD := "std", FILE := "file", REPORT := "report" }

/-- The struct `Conf`. The field `Type` is written `Type_`; a nil `CallBack` is
`none`. -/
structure Conf where
  Level : String
  Type_ : String
  Path : String
  CallBack : Option report.CallBack
  deriving DecidableEq, Repr

/-- The encoder of a core, named by the function that builds it: `getStdEncoder`,
`getFileEncoder`, `getReportEncoder`. -/
inductive Encoder where
  | getStdEncoder
  | getFileEncoder
  | getReportEncoder
  deriving DecidableEq, Repr

/-- The four `zap.LevelEnablerFunc` values declared at the top of `getLogCore`. -/
inductive LevelEnabler where
  | debugLevel
  | infoLevel
  | warnLevel
  | errorLevel
  deriving DecidableEq, Repr

/-- The bodies of the four level enablers. -/
def LevelEnabler.Enabled : LevelEnabler → Int → Bool
  | LevelEnabler.debugLevel, level => level == zapcore.DebugLevel
  | LevelEnabler.infoLevel, level => level == zapcore.InfoLevel
  | LevelEnabler.warnLevel, level => level == zapcore.WarnLevel
  | LevelEnabler.errorLevel, level => decide (level ≥ zapcore.ErrorLevel)

/-- The struct literal of `getLogFileWriter`: a `lumberjack.Logger`. -/
structure LumberjackLogger where
  Filename : String
  MaxSize : Nat
  MaxBackups : Nat
  MaxAge : Nat
  Compress : Bool
  deriving DecidableEq, Repr

/-- The function `getLogFileName`. -/
def getLogFileName (serverName : String) (logType : String) (path : String) : String :=
  path ++ serverName ++ "." ++ logType ++ ".log"

/-- The function `getLogFileWriter`. -/
def getLogFileWriter (filename : String) : LumberjackLogger :=
  { Filename := filename, MaxSize := 10, MaxBackups := 20, MaxAge := 7, Compress := true }

/-- The function `getLevelLogFileWriter`. -/
def getLevelLogFileWriter (serverName : String) (level : String) (path : String) :
    LumberjackLogger :=
  getLogFileWriter (getLogFileName serverName level path)

/-- The write target of a core: standard output, a rotating file, or a report
writer. -/
inductive WriteSyncer where
  | stdout
  | file (w : LumberjackLogger)
  | report (r : report.Report)
  deriving DecidableEq, Repr

/-- The result of `zapcore.NewCore(enc, ws, enab)`. -/
structure Core where
  enc : Encoder
  out : WriteSyncer
  enab : LevelEnabler
  deriving DecidableEq, Repr

/-- The constructor `zapcore.NewCore`. -/
def NewCore (enc : Encoder) (ws : WriteSyncer) (enab : LevelEnabler) : Core :=
  { enc := enc, out := ws, enab := enab }

/-- The clause a `switch` on a level string enters. The clauses of each switch of
`getLogCore` are, in order: `case Level.Debug` (0), `case Level.Info` (1),
`case Level.Warn` (2), `case Level.Error` (3), `default` (4). -/
def switchEntry (level : String) : Nat :=
  if level = Level.Debug then 0
  else if level = Level.Info then 1
  else if level = Level.Warn then 2
  else if level = Level.Error then 3
  else 4

/-- Execution of a `switch` whose every clause but the last ends in `fallthrough`:
the bodies from the entered clause to the last one run in order on the slice. -/
def runFallthrough (bodies : List (List Core → List Core)) (entry : Nat)
    (zapCoreTee : List Core) : List Core :=
  (bodies.drop entry).foldl (fun tee body => body tee) zapCoreTee

/-- The `switch stdConf.Level` of `getLogCore`. -/
def stdSwitch (level : String) (zapCoreTee : List Core) : List Core :=
  runFallthrough
    [ fun tee => tee ++ [NewCore Encoder.getStdEncoder WriteSyncer.stdout LevelEnabler.debugLevel],
      fun tee => tee ++ [NewCore Encoder.getStdEncoder WriteSyncer.stdout LevelEnabler.infoLevel],
      fun tee => tee ++ [NewCore Encoder.getStdEncoder WriteSyncer.stdout LevelEnabler.warnLevel],
      fun tee => tee,
      fun tee => tee ++ [NewCore Encoder.getStdEncoder WriteSyncer.stdout LevelEnabler.errorLevel] ]
    (switchEntry level) zapCoreTee

/-- The `switch fileConf.Level` of `getLogCore`, with the four file writers built
before it. -/
def fileSwitch (serverName : String) (path : String) (level : String)
    (zapCoreTee : List Core) : List Core :=
  let debugFileWriter := WriteSyncer.file (getLevelLogFileWriter serverName Level.Debug path)
  let infoFileWriter := WriteSyncer.file (getLevelLogFileWriter serverName Level.Info path)
  let warnFileWriter := WriteSyncer.file (getLevelLogFileWriter serverName Level.Warn path)
  let errFileWriter := WriteSyncer.file (getLevelLogFileWriter serverName Level.Error path)
  runFallthrough
    [ fun tee => tee ++ [NewCore Encoder.getFileEncoder debugFileWriter LevelEnabler.debugLevel],
      fun tee => tee ++ [NewCore Encoder.getFileEncoder infoFileWriter LevelEnabler.infoLevel],
      fun tee => tee ++ [NewCore Encoder.getFileEncoder warnFileWriter LevelEnabler.warnLevel],
      fun tee => tee,
      fun tee => tee ++ [NewCore Encoder.getFileEncoder errFileWriter LevelEnabler.errorLevel] ]
    (switchEntry level) zapCoreTee

/-- The `switch reportConf.Level` of `getLogCore`. -/
def reportSwitch (cb : report.CallBack) (level : String) (zapCoreTee : List Core) :
    List Core :=
  runFallthrough
    [ fun tee => tee ++ [NewCore Encoder.getReportEncoder
        (WriteSyncer.report (report.IoWrite Level.Debug cb)) LevelEnabler.debugLevel],
      fun tee => tee ++ [NewCore Encoder.getReportEncoder
        (WriteSyncer.report (report.IoWrite Level.Info cb)) LevelEnabler.infoLevel],
      fun tee => tee ++ [NewCore Encoder.getReportEncoder
        (WriteSyncer.report (report.IoWrite Level.Warn cb)) LevelEnabler.warnLevel],
      fun tee => tee,
      fun tee => tee ++ [NewCore Encoder.getReportEncoder
        (WriteSyncer.report (report.IoWrite Level.Error cb)) LevelEnabler.errorLevel] ]
    (switchEntry level) zapCoreTee

/-- The function `getLogCore`: the slice handed to `zapcore.NewTee`. -/
def getLogCore (serverName : String) (stdConf fileConf reportConf : Option Conf) :
    List Core :=
  let zapCoreTee : List Core := []
  let zapCoreTee :=
    match stdConf with
    | some c => stdSwitch c.Level zapCoreTee
    | none => zapCoreTee
  let zapCoreTee :=
    match fileConf with
    | some c => if c.Path ≠ "" then fileSwitch serverName c.Path c.Level zapCoreTee
                else zapCoreTee
    | none => zapCoreTee
  let zapCoreTee :=
    match reportConf with
    | some c =>
      let cb := match c.CallBack with
        | none => report.CallBack.noop
        | some f => f
      reportSwitch cb c.Level zapCoreTee
    | none => zapCoreTee
  zapCoreTee

/-- The result of `zap.New(core, zap.AddCaller(), fields)`: the tee of cores, the
caller option, the constant fields and the caller skip (zero for a new logger). -/
structure Logger where
  core : List Core
  addCaller : Bool
  fields : List (String × String)
  callerSkip : Nat
  deriving DecidableEq, Repr

/-- The three local variables `stdConf`, `fileConf`, `reportConf` of `create`. -/
structure Selected where
  stdConf : Option Conf
  fileConf : Option Conf
  reportConf : Option Conf
  deriving DecidableEq, Repr

/-- One iteration of the loop of `create` over `configs`. -/
def createStep (sel : Selected) (config : Option Conf) : Except String Selected :=
  match config with
  | none => Except.ok sel
  | some c =>
    if c.Type_ = Type_.STD then Except.ok { sel with stdConf := some c }
    else if c.Type_ = Type_.FILE then Except.ok { sel with fileConf := some c }
    else if c.Type_ = Type_.REPORT then Except.ok { sel with reportConf := some c }
    else Except.error "Invalid Logger Type"

/-- The loop of `create` over `configs`, from a given state of the three
variables. -/
def createLoop : Selected → List (Option Conf) → Except String Selected
  | sel, [] => Except.ok sel
  | sel, config :: rest =>
    match createStep sel config with
    | Except.ok sel1 => createLoop sel1 rest
    | Except.error msg => Except.error msg

/-- The function `create`. -/
def create (serverName : String) (configs : List (Option Conf)) : Except String Logger :=
  let serverName := if serverName = "" then "server" else serverName
  match createLoop { stdConf := none, fileConf := none, reportConf := none } configs with
  | Except.error msg => Except.error msg
  | Except.ok sel =>
    let core := getLogCore serverName sel.stdConf sel.fileConf sel.reportConf
    Except.ok { core := core, addCaller := true, fields := [("serverName", serverName)],
                callerSkip := 0 }

/-- The function `NewDebug`. -/
def NewDebug (serverName : String) (configs : List (Option Conf)) : Except String Logger :=
  create serverName
    ([some { Level := Level.Debug, Type_ := Type_.STD, Path := "", CallBack := none }] ++ configs)

/-- The function `NewInfo`. -/
def NewInfo (serverName : String) (configs : List (Option Conf)) : Except String Logger :=
  create serverName
    ([some { Level := Level.Info, Type_ := Type_.STD, Path := "", CallBack := none }] ++ configs)

/-- The function `NewWarn`. -/
def NewWarn (serverName : String) (configs : List (Option Conf)) : Except String Logger :=
  create serverName
    ([some { Level := Level.Warn, Type_ := Type_.STD, Path := "", CallBack := none }] ++ configs)

/-- The function `NewError`. -/
def NewError (serverName : String) (configs : List (Option Conf)) : Except String Logger :=
  create serverName
    ([some { Level := Level.Error, Type_ := Type_.STD, Path := "", CallBack := none }] ++ configs)

/-- The function `New`. -/
def New (serverName : String) (configs : List (Option Conf)) : Except String Logger :=
  NewInfo serverName configs

/-- A record written by one core of the tee. -/
structure Record where
  core : Core
  level : Int
  msg : String
  deriving DecidableEq, Repr

/-- Modelled from the spec: the Unified Logger of zap (the methods of `*zap.Logger`
over a tee of cores, a library that is not under src/), which "fans each record out
to every triple whose filter accepts the record's severity": one record per core
whose enabler accepts the level, in the order of the tee. -/
def Logger.log (lg : Logger) (level : Int) (msg : String) : List Record :=
  (lg.core.filter (fun c => c.enab.Enabled level)).map
    (fun c => { core := c, level := level, msg := msg })

/-- The method `Debug` of the zap logger. -/
def Logger.Debug (lg : Logger) (msg : String) : List Record := lg.log zapcore.DebugLevel msg
/-- The method `Info` of the zap logger. -/
def Logger.Info (lg : Logger) (msg : String) : List Record := lg.log zapcore.InfoLevel msg
/-- The method `Warn` of the zap logger. -/
def Logger.Warn (lg : Logger) (msg : String) : List Record := lg.log zapcore.WarnLevel msg
/-- The method `Error` of the zap logger. -/
def Logger.Error (lg : Logger) (msg : String) : List Record := lg.log zapcore.ErrorLevel msg

/-- The call `lg.WithOptions(zap.AddCallerSkip(skip))`: a copy of the logger with the
caller skip increased. -/
def Logger.WithOptions_AddCallerSkip (lg : Logger) (skip : Nat) : Logger :=
  { lg with callerSkip := lg.callerSkip + skip }

end logger

/-! ## package gormlogger -/

namespace gormlogger

/-- The struct `Log`. Durations are integers (nanoseconds). -/
structure Log where
  ZapLogger : logger.Logger
  LogLevel : Int
  SlowThreshold : Int
  SkipCallerLookup : Bool
  IgnoreRecordNotFoundError : Bool
  deriving DecidableEq, Repr

/-- A non-nil `error` value: its text and whether
`errors.Is(err, gorm.ErrRecordNotFound)` holds of it. -/
structure GormErr where
  text : String
  isRecordNotFound : Bool
  deriving DecidableEq, Repr

/-- A structured field passed to a zap call. `slowLog d` stands for
`zap.String("slowLog", fmt.Sprintf("SLOW SQL >= %v", d))`. -/
inductive Field where
  | error (err : Option GormErr)
  | string (key : String) (val : String)
  | duration (key : String) (val : Int)
  | int64 (key : String) (val : Int)
  | slowLog (threshold : Int)
  deriving DecidableEq, Repr

/-- One call on a zap logger made by the adapter: the logger it is made on, whether
it goes through `Sugar()`, the zap level of the method called, the message (format
string), the format arguments and the fields. -/
structure Entry where
  logger : logger.Logger
  sugar : Bool
  level : Int
  msg : String
  args : List String
  fields : List Field
  deriving DecidableEq, Repr

/-- The method `LogMode`. -/
def Log.LogMode (l : Log) (level : Int) : Log :=
  { ZapLogger := l.ZapLogger,
    SlowThreshold := l.SlowThreshold,
    LogLevel := level,
    SkipCallerLookup := l.SkipCallerLookup,
    IgnoreRecordNotFoundError := l.IgnoreRecordNotFoundError }

/-- The variable `gormPackage`, `filepath.Join("gorm.io", "gorm")`. -/
def gormPackage : String := "gorm.io/gorm"

/-- The variable `zapGormPackage`, `filepath.Join("moul.io", "zapgorm2")`. -/
def zapGormPackage : String := "moul.io/zapgorm2"

/-- The Go function `strings.HasSuffix`. -/
def HasSuffix (s suffix : String) : Bool := suffix.toList.isSuffixOf s.toList

/-- The Go function `strings.Contains`. -/
def Contains (s substr : String) : Bool :=
  s.toList.tails.any (fun t => substr.toList.isPrefixOf t)

/-- The call `runtime.Caller(i)` on a stack given by the files of its frames:
the file of frame `i`, or `none` when `ok` is false. -/
def runtimeCaller (stack : List String) (i : Nat) : Option String := stack.get? i

/-- The `default` clause of the switch of `Log.logger` is reached at index `i`:
`ok` holds and none of the three tests on the file does. -/
def selectable (stack : List String) (i : Nat) : Bool :=
  match runtimeCaller stack i with
  | none => false
  | some file =>
    !HasSuffix file "_test.go" && !Contains file gormPackage && !Contains file zapGormPackage

/-- The loop body of `Log.logger` run over the remaining values of `i`. -/
def loggerScan (l : Log) (stack : List String) : List Nat → logger.Logger
  | [] => l.ZapLogger
  | i :: rest =>
    match runtimeCaller stack i with
    | none => loggerScan l stack rest
    | some file =>
      if HasSuffix file "_test.go" then loggerScan l stack rest
      else if Contains file gormPackage then loggerScan l stack rest
      else if Contains file zapGormPackage then loggerScan l stack rest
      else l.ZapLogger.WithOptions_AddCallerSkip i

/-- The method `Log.logger`: `for i := 2; i < 15; i++`. -/
def Log.logger (l : Log) (stack : List String) : logger.Logger :=
  loggerScan l stack (List.range' 2 13)

/-- The message `fmt.Sprintf("[%s] %s", utils.FileWithLineNum(), str)` of the three
verbs. -/
def verbMessage (fileWithLineNum : String) (str : String) : String :=
  "[" ++ fileWithLineNum ++ "] " ++ str

/-- The method `Log.Info`. `stack` is the call stack seen from `Log.logger` and
`fileWithLineNum` the value of `utils.FileWithLineNum()`. -/
def Log.Info (l : Log) (stack : List String) (fileWithLineNum : String) (str : String)
    (args : List String) : List Entry :=
  if l.LogLevel ≥ gormLogger.Info then
    [{ logger := l.logger stack, sugar := true, level := zapcore.InfoLevel,
       msg := verbMessage fileWithLineNum str, args := args, fields := [] }]
  else []

/-- The method `Log.Warn`. -/
def Log.Warn (l : Log) (stack : List String) (fileWithLineNum : String) (str : String)
    (args : List String) : List Entry :=
  if l.LogLevel ≥ gormLogger.Warn then
    [{ logger := l.logger stack, sugar := true, level := zapcore.WarnLevel,
       msg := verbMessage fileWithLineNum str, args := args, fields := [] }]
  else []

/-- The method `Log.Error`. -/
def Log.Error (l : Log) (stack : List String) (fileWithLineNum : String) (str : String)
    (args : List String) : List Entry :=
  if l.LogLevel ≥ gormLogger.Error then
    [{ logger := l.logger stack, sugar := true, level := zapcore.ErrorLevel,
       msg := verbMessage fileWithLineNum str, args := args, fields := [] }]
  else []

/-- The call `errors.Is(err, gorm.ErrRecordNotFound)`; false of the nil error. -/
def errorsIsRecordNotFound (err : Option GormErr) : Bool :=
  match err with
  | none => false
  | some e => e.isRecordNotFound

/-- The largest `time.Duration`, `math.MaxInt64` nanoseconds. -/
def maxDuration : Int := 9223372036854775807

/-- The smallest `time.Duration`, `math.MinInt64` nanoseconds. -/
def minDuration : Int := -9223372036854775808

/-- The call `time.Since(begin)` with the clock at `now`, instants counted in
nanoseconds: it is `now.Sub(begin)`, an `int64` that saturates at `maxDuration` and
`minDuration` when the difference is out of range. -/
def timeSince (now begin : Int) : Int :=
  if now - begin > maxDuration then maxDuration
  else if now - begin < minDuration then minDuration
  else now - begin

/-- The method `Log.Trace`. `now` is the clock read by `time.Since(begin)` and `fc`
the pair returned by the fetch function. -/
def Log.Trace (l : Log) (stack : List String) (fileWithLineNum : String) (now begin : Int)
    (fc : String × Int) (err : Option GormErr) : List Entry :=
  if l.LogLevel ≤ gormLogger.Silent then []
  else
    let elapsed := timeSince now begin
    let sql := fc.1
    let rows := if fc.2 = -1 then 0 else fc.2
    if err ≠ none ∧ l.LogLevel ≥ gormLogger.Error ∧
        (errorsIsRecordNotFound err = false ∨ l.IgnoreRecordNotFoundError = false) then
      [{ logger := l.logger stack, sugar := false, level := zapcore.ErrorLevel, msg := "trace",
         args := [],
         fields := [Field.error err, Field.string "fileWithLineNum" fileWithLineNum,
                    Field.duration "elapsed" elapsed, Field.int64 "rows" rows,
                    Field.string "sql" sql] }]
    else if elapsed > l.SlowThreshold ∧ l.SlowThreshold ≠ 0 ∧ l.LogLevel ≥ gormLogger.Warn then
      [{ logger := l.logger stack, sugar := false, level := zapcore.WarnLevel, msg := "trace",
         args := [],
         fields := [Field.error err, Field.string "fileWithLineNum" fileWithLineNum,
                    Field.slowLog l.SlowThreshold,
                    Field.duration "elapsed" elapsed, Field.int64 "rows" rows,
                    Field.string "sql" sql] }]
    else if l.LogLevel = gormLogger.Info then
      [{ logger := l.logger stack, sugar := false, level := zapcore.InfoLevel, msg := "trace",
         args := [],
         fields := [Field.string "fileWithLineNum" fileWithLineNum,
                    Field.duration "elapsed" elapsed, Field.int64 "rows" rows,
                    Field.string "sql" sql] }]
    else []

/-- A `Log` value as it lies in memory: the field `ZapLogger` is a pointer, given by
the address of a zap logger on the heap. -/
structure LogCell where
  ZapLogger : Nat
  LogLevel : Int
  SlowThreshold : Int
  SkipCallerLookup : Bool
  IgnoreRecordNotFoundError : Bool
  deriving DecidableEq, Repr

/-- The memory a method of `Log` is called in: the zap loggers on the heap (an
address is an index), the variable of the caller that holds the receiver, and the
package variable `gormLogger.Default`. -/
structure Memory where
  heap : List logger.Logger
  receiver : LogCell
  Default : Option LogCell
  deriving DecidableEq, Repr

/-- The handle a cell stands for in a memory: its pointer followed to the zap logger
it points to; `none` for a pointer to nothing. -/
def Memory.load (m : Memory) (c : LogCell) : Option Log :=
  match m.heap.get? c.ZapLogger with
  | none => none
  | some z =>
    some { ZapLogger := z,
           LogLevel := c.LogLevel,
           SlowThreshold := c.SlowThreshold,
           SkipCallerLookup := c.SkipCallerLookup,
           IgnoreRecordNotFoundError := c.IgnoreRecordNotFoundError }

/-- The method `LogMode` as a step on memory. The receiver `l` is passed by value, so
the body works on a copy of the caller's variable; it builds the returned value from
the fields of `l` and assigns to nothing. The result is the returned value and the
memory after the call. -/
def LogMode_step (m : Memory) (level : Int) : LogCell × Memory :=
  let l := m.receiver
  ({ ZapLogger := l.ZapLogger,
     SlowThreshold := l.SlowThreshold,
     LogLevel := level,
     SkipCallerLookup := l.SkipCallerLookup,
     IgnoreRecordNotFoundError := l.IgnoreRecordNotFoundError },
   m)

/-- The method `SetAsDefault` as a step on memory: `gormLogger.Default = l`. -/
def SetAsDefault_step (m : Memory) : Memory :=
  let l := m.receiver
  { m with Default := some l }

/-- Modelled from the spec: the caller annotation of zap (`zap.AddCaller`, a library
that is not under src/), which tags a record with the file of a frame of the call
stack. The frame is the one `callerSkip` frames above the function that calls the
logging method of the zap logger; in the adapter that function is the verb, which is
frame 1 of the stack seen from `Log.logger`. -/
def annotatedFrame (stack : List String) (lg : logger.Logger) : Option String :=
  runtimeCaller stack (1 + lg.callerSkip)

end gormlogger

/-! ## The specification's vocabulary

Definitions written from the words of the specification, to be compared with the
definitions above, which are written from the code. -/

namespace spec

open logger

/-- The cascade of filters the specification gives for a level string:
"debug" gives Debug-exact, Info-exact, Warn-exact, Error-or-above; "info" the last
three; "warn" the last two; "error" and any other string Error-or-above alone. -/
def cascade (level : String) : List LevelEnabler :=
  if level = "debug" then
    [LevelEnabler.debugLevel, LevelEnabler.infoLevel, LevelEnabler.warnLevel,
     LevelEnabler.errorLevel]
  else if level = "info" then
    [LevelEnabler.infoLevel, LevelEnabler.warnLevel, LevelEnabler.errorLevel]
  else if level = "warn" then [LevelEnabler.warnLevel, LevelEnabler.errorLevel]
  else [LevelEnabler.errorLevel]

/-- The level a filter is for, as the string that names its file and tags its
callback. -/
def levelName : LevelEnabler → String
  | LevelEnabler.debugLevel => "debug"
  | LevelEnabler.infoLevel => "info"
  | LevelEnabler.warnLevel => "warn"
  | LevelEnabler.errorLevel => "error"

/-- The console core with filter `x`. -/
def consoleCore (x : LevelEnabler) : Core :=
  { enc := Encoder.getStdEncoder, out := WriteSyncer.stdout, enab := x }

/-- The file core with filter `x`: it writes to the rotating file named
`path ++ serverName ++ "." ++ level ++ ".log"` for the level of `x`. -/
def fileCore (serverName path : String) (x : LevelEnabler) : Core :=
  { enc := Encoder.getFileEncoder,
    out := WriteSyncer.file
      { Filename := path ++ serverName ++ "." ++ levelName x ++ ".log",
        MaxSize := 10, MaxBackups := 20, MaxAge := 7, Compress := true },
    enab := x }

/-- The callback core with filter `x`: it carries the level tag of `x`. -/
def callbackCore (cb : report.CallBack) (x : LevelEnabler) : Core :=
  { enc := Encoder.getReportEncoder,
    out := WriteSyncer.report { level := levelName x, cb := cb },
    enab := x }

/-- The cores the specification gives a console destination. -/
def consoleCores (stdConf : Option Conf) : List Core :=
  match stdConf with
  | none => []
  | some c => (cascade c.Level).map consoleCore

/-- The cores the specification gives a file destination: none when the path is
empty. -/
def fileCores (serverName : String) (fileConf : Option Conf) : List Core :=
  match fileConf with
  | none => []
  | some c => if c.Path = "" then [] else (cascade c.Level).map (fileCore serverName c.Path)

/-- The cores the specification gives a callback destination; a config without a
callback gets the empty one. -/
def callbackCores (reportConf : Option Conf) : List Core :=
  match reportConf with
  | none => []
  | some c => (cascade c.Level).map (callbackCore (c.CallBack.getD report.CallBack.noop))

/-- The floor of a level string: Debug, Info, Warn for "debug", "info", "warn", and
Error for "error" and every other string. -/
def floor (level : String) : Int :=
  if level = "debug" then zapcore.DebugLevel
  else if level = "info" then zapcore.InfoLevel
  else if level = "warn" then zapcore.WarnLevel
  else zapcore.ErrorLevel

/-- The enabled destination of a family, the family being named by its encoder: a
non-nil config, and for the file family one whose path is not empty. -/
def destination (family : Encoder) (stdConf fileConf reportConf : Option Conf) :
    Option Conf :=
  match family with
  | Encoder.getStdEncoder => stdConf
  | Encoder.getFileEncoder =>
    match fileConf with
    | none => none
    | some c => if c.Path = "" then none else some c
  | Encoder.getReportEncoder => reportConf

/-- The cores of a tee that belong to a family and accept a severity. -/
def accepting (family : Encoder) (severity : Int) (cores : List Core) : List Core :=
  cores.filter (fun k => k.enc = family ∧ k.enab.Enabled severity = true)

/-- A recognized destination kind: one of "std", "file", "report". -/
def recognized (kind : String) : Prop :=
  kind = "std" ∨ kind = "file" ∨ kind = "report"

/-- Every non-nil entry of a list of configs has a recognized kind. -/
def allRecognized (configs : List (Option Conf)) : Prop :=
  ∀ c : Conf, some c ∈ configs → recognized c.Type_

/-- The last non-nil entry of a kind in a list of configs, if there is one. -/
def lastOfKind (kind : String) (configs : List (Option Conf)) : Option Conf :=
  ((configs.filterMap id).filter (fun c => c.Type_ = kind)).getLast?

/-- The logger built over the cores of three destination configs, for a service
name: the name defaults to "server". -/
def loggerOver (serverName : String) (stdConf fileConf reportConf : Option Conf) : Logger :=
  let name := if serverName = "" then "server" else serverName
  { core := getLogCore name stdConf fileConf reportConf,
    addCaller := true,
    fields := [("serverName", name)],
    callerSkip := 0 }

/-- The console cores of a logger. -/
def consoleOf (lg : Logger) : List Core :=
  lg.core.filter (fun k => k.enc = Encoder.getStdEncoder)

/-- The console destination of a logger is at a level: its console cores are the
cascade of that level. -/
def consoleAt (lg : Logger) (level : String) : Prop :=
  consoleOf lg = (cascade level).map consoleCore

/-- The first matching rule of the specification for `Trace`: the zap severity of
the one record emitted, or none. -/
def traceRule (level : Int) (hasError notFound ignoreNotFound : Bool)
    (elapsed slowThreshold : Int) : Option Int :=
  if level ≤ gormLogger.Silent then none
  else if hasError = true ∧ (notFound = false ∨ ignoreNotFound = false)
      ∧ gormLogger.Error ≤ level then some zapcore.ErrorLevel
  else if elapsed > slowThreshold ∧ slowThreshold ≠ 0 ∧ gormLogger.Warn ≤ level then
    some zapcore.WarnLevel
  else if level = gormLogger.Info then some zapcore.InfoLevel
  else none

/-- A handle over a logger without cores, at a given level, with the three-second
threshold and the suppression of not-found errors that `gormlogger.New` sets. -/
def sampleHandle (level : Int) : gormlogger.Log :=
  { ZapLogger := { core := [], addCaller := true, fields := [], callerSkip := 0 },
    LogLevel := level,
    SlowThreshold := 3000000000,
    SkipCallerLookup := false,
    IgnoreRecordNotFoundError := true }

/-- A call stack of five frames, seen from `Log.logger`: `Log.logger` itself, the
verb `Trace` that called it, the frame of the gorm package that called the verb, the
application code that issued the query, and the runtime frame that called the
application. -/
def gormStack : List String :=
  ["/go/src/github.com/eliassama/black-zap/gormlogger/logger.go",
   "/go/src/github.com/eliassama/black-zap/gormlogger/logger.go",
   "/go/pkg/mod/gorm.io/gorm@v1.25.5/callbacks.go",
   "/app/main.go",
   "/usr/local/go/src/runtime/proc.go"]

/-- The call stack of a query issued by application code through gorm, seen from
`Log.logger`: `Log.logger` itself, the verb `Trace`, the two frames of the gorm
package between the application and the verb, the application code, and the runtime
frame that called the application. -/
def queryStack : List String :=
  ["/go/src/github.com/eliassama/black-zap/gormlogger/logger.go",
   "/go/src/github.com/eliassama/black-zap/gormlogger/logger.go",
   "/go/pkg/mod/gorm.io/gorm@v1.25.5/callbacks.go",
   "/go/pkg/mod/gorm.io/gorm@v1.25.5/finisher_api.go",
   "/app/main.go",
   "/usr/local/go/src/runtime/proc.go"]

end spec

/-! ## Lemmas -/

namespace logger

theorem stdSwitch_eq (level : String) (tee : List Core) :
    stdSwitch level tee = tee ++ (spec.cascade level).map spec.consoleCore := by
  unfold stdSwitch switchEntry spec.cascade
  simp only [Level]
  split_ifs <;> simp [runFallthrough, NewCore, spec.consoleCore]

theorem fileSwitch_eq (serverName path level : String) (tee : List Core) :
    fileSwitch serverName path level tee
      = tee ++ (spec.cascade level).map (spec.fileCore serverName path) := by
  unfold fileSwitch switchEntry spec.cascade
  simp only [Level]
  split_ifs <;>
    simp [runFallthrough, NewCore, spec.fileCore, spec.levelName, getLevelLogFileWriter,
      getLogFileWriter, getLogFileName]

theorem reportSwitch_eq (cb : report.CallBack) (level : String) (tee : List Core) :
    reportSwitch cb level tee = tee ++ (spec.cascade level).map (spec.callbackCore cb) := by
  unfold reportSwitch switchEntry spec.cascade
  simp only [Level]
  split_ifs <;>
    simp [runFallthrough, NewCore, spec.callbackCore, spec.levelName, report.IoWrite]

theorem getLogCore_eq (serverName : String) (stdConf fileConf reportConf : Option Conf) :
    getLogCore serverName stdConf fileConf reportConf
      = spec.consoleCores stdConf ++ spec.fileCores serverName fileConf
          ++ spec.callbackCores reportConf := by
  have hcb : ∀ o : Option report.CallBack,
      (match o with
        | none => report.CallBack.noop
        | some f => f) = o.getD report.CallBack.noop := by
    intro o
    cases o <;> rfl
  unfold getLogCore spec.consoleCores spec.fileCores spec.callbackCores
  cases stdConf <;> cases fileConf <;> cases reportConf <;>
    simp [stdSwitch_eq, fileSwitch_eq, reportSwitch_eq, hcb] <;>
    split_ifs <;> simp

theorem cascade_filter_length (level : String) (severity : Int) :
    ((spec.cascade level).filter (fun x => x.Enabled severity)).length
      = if spec.floor level ≤ severity then 1 else 0 := by
  unfold spec.cascade spec.floor
  simp only [zapcore.DebugLevel, zapcore.InfoLevel, zapcore.WarnLevel, zapcore.ErrorLevel]
  have h1 : (LevelEnabler.debugLevel.Enabled severity = true) = (severity = -1) := by
    simp [LevelEnabler.Enabled, zapcore.DebugLevel]
  have h2 : (LevelEnabler.infoLevel.Enabled severity = true) = (severity = 0) := by
    simp [LevelEnabler.Enabled, zapcore.InfoLevel]
  have h3 : (LevelEnabler.warnLevel.Enabled severity = true) = (severity = 1) := by
    simp [LevelEnabler.Enabled, zapcore.WarnLevel]
  have h4 : (LevelEnabler.errorLevel.Enabled severity = true) = (2 ≤ severity) := by
    simp [LevelEnabler.Enabled, zapcore.ErrorLevel]
  split_ifs <;>
    simp only [List.filter_cons, List.filter_nil, h1, h2, h3, h4] <;>
    split_ifs <;> first | omega | simp

theorem accepting_console (family : Encoder) (severity : Int) (xs : List LevelEnabler) :
    spec.accepting family severity (xs.map spec.consoleCore)
      = if family = Encoder.getStdEncoder
        then (xs.filter (fun x => x.Enabled severity)).map spec.consoleCore else [] := by
  unfold spec.accepting
  induction xs with
  | nil => simp
  | cons x xs ih =>
    rw [List.map_cons, List.filter_cons, ih]
    by_cases hf : family = Encoder.getStdEncoder
    · subst hf
      by_cases hx : x.Enabled severity = true <;> simp [spec.consoleCore, hx]
    · have hf2 : ¬ Encoder.getStdEncoder = family := fun h => hf h.symm
      simp [spec.consoleCore, hf, hf2]

theorem accepting_file (family : Encoder) (severity : Int) (serverName path : String)
    (xs : List LevelEnabler) :
    spec.accepting family severity (xs.map (spec.fileCore serverName path))
      = if family = Encoder.getFileEncoder
        then (xs.filter (fun x => x.Enabled severity)).map (spec.fileCore serverName path)
        else [] := by
  unfold spec.accepting
  induction xs with
  | nil => simp
  | cons x xs ih =>
    rw [List.map_cons, List.filter_cons, ih]
    by_cases hf : family = Encoder.getFileEncoder
    · subst hf
      by_cases hx : x.Enabled severity = true <;> simp [spec.fileCore, hx]
    · have hf2 : ¬ Encoder.getFileEncoder = family := fun h => hf h.symm
      simp [spec.fileCore, hf, hf2]

theorem accepting_callback (family : Encoder) (severity : Int) (cb : report.CallBack)
    (xs : List LevelEnabler) :
    spec.accepting family severity (xs.map (spec.callbackCore cb))
      = if family = Encoder.getReportEncoder
        then (xs.filter (fun x => x.Enabled severity)).map (spec.callbackCore cb)
        else [] := by
  unfold spec.accepting
  induction xs with
  | nil => simp
  | cons x xs ih =>
    rw [List.map_cons, List.filter_cons, ih]
    by_cases hf : family = Encoder.getReportEncoder
    · subst hf
      by_cases hx : x.Enabled severity = true <;> simp [spec.callbackCore, hx]
    · have hf2 : ¬ Encoder.getReportEncoder = family := fun h => hf h.symm
      simp [spec.callbackCore, hf, hf2]

theorem accepting_append (family : Encoder) (severity : Int) (xs ys : List Core) :
    spec.accepting family severity (xs ++ ys)
      = spec.accepting family severity xs ++ spec.accepting family severity ys := by
  unfold spec.accepting
  exact List.filter_append xs ys

theorem accepting_length (serverName : String) (stdConf fileConf reportConf : Option Conf)
    (family : Encoder) (c : Conf) (severity : Int)
    (h : spec.destination family stdConf fileConf reportConf = some c) :
    (spec.accepting family severity
        (getLogCore serverName stdConf fileConf reportConf)).length
      = if spec.floor c.Level ≤ severity then 1 else 0 := by
  have hnil : spec.accepting family severity [] = [] := rfl
  rw [getLogCore_eq, accepting_append, accepting_append]
  cases family with
  | getStdEncoder =>
    simp only [spec.destination] at h
    subst h
    have hf : spec.accepting Encoder.getStdEncoder severity (spec.fileCores serverName fileConf)
        = [] := by
      unfold spec.fileCores
      cases fileConf with
      | none => rfl
      | some d => by_cases hp : d.Path = "" <;> simp [hp, accepting_file, hnil]
    have hr : spec.accepting Encoder.getStdEncoder severity (spec.callbackCores reportConf)
        = [] := by
      unfold spec.callbackCores
      cases reportConf with
      | none => rfl
      | some d => simp [accepting_callback]
    rw [hf, hr]
    simp [spec.consoleCores, accepting_console, cascade_filter_length]
  | getFileEncoder =>
    simp only [spec.destination] at h
    cases fileConf with
    | none => simp at h
    | some d =>
      by_cases hp : d.Path = ""
      · simp [hp] at h
      · simp only [hp, if_false, Option.some.injEq] at h
        subst h
        have hs : spec.accepting Encoder.getFileEncoder severity (spec.consoleCores stdConf)
            = [] := by
          unfold spec.consoleCores
          cases stdConf with
          | none => rfl
          | some d => simp [accepting_console]
        have hr : spec.accepting Encoder.getFileEncoder severity
            (spec.callbackCores reportConf) = [] := by
          unfold spec.callbackCores
          cases reportConf with
          | none => rfl
          | some d => simp [accepting_callback]
        rw [hs, hr]
        simp [spec.fileCores, hp, accepting_file, cascade_filter_length]
  | getReportEncoder =>
    simp only [spec.destination] at h
    subst h
    have hs : spec.accepting Encoder.getReportEncoder severity (spec.consoleCores stdConf)
        = [] := by
      unfold spec.consoleCores
      cases stdConf with
      | none => rfl
      | some d => simp [accepting_console]
    have hf : spec.accepting Encoder.getReportEncoder severity
        (spec.fileCores serverName fileConf) = [] := by
      unfold spec.fileCores
      cases fileConf with
      | none => rfl
      | some d => by_cases hp : d.Path = "" <;> simp [hp, accepting_file, hnil]
    rw [hs, hf]
    simp [spec.callbackCores, accepting_callback, cascade_filter_length]

theorem lastOfKind_cons_none (kind : String) (rest : List (Option Conf)) :
    spec.lastOfKind kind (none :: rest) = spec.lastOfKind kind rest := by
  simp [spec.lastOfKind]

theorem lastOfKind_cons_some (kind : String) (c : Conf) (rest : List (Option Conf)) :
    spec.lastOfKind kind (some c :: rest)
      = if c.Type_ = kind then (spec.lastOfKind kind rest).or (some c)
        else spec.lastOfKind kind rest := by
  unfold spec.lastOfKind
  by_cases hk : c.Type_ = kind
  · simp only [List.filterMap_cons, id, hk, if_true]
    rw [List.filter_cons]
    simp only [hk, decide_True, if_true]
    rw [List.getLast?_cons]
    cases (List.filter (fun c => decide (c.Type_ = kind))
      (List.filterMap id rest)).getLast? <;> rfl
  · simp only [List.filterMap_cons, id, hk, if_false]
    rw [List.filter_cons]
    simp [hk]

theorem createLoop_ok (configs : List (Option Conf)) :
    spec.allRecognized configs → ∀ sel : Selected,
    createLoop sel configs = Except.ok
      { stdConf := (spec.lastOfKind "std" configs).or sel.stdConf,
        fileConf := (spec.lastOfKind "file" configs).or sel.fileConf,
        reportConf := (spec.lastOfKind "report" configs).or sel.reportConf } := by
  induction configs with
  | nil =>
    intro _ sel
    simp [createLoop, spec.lastOfKind]
  | cons x rest ih =>
    intro h sel
    have hrest : spec.allRecognized rest := fun c hc => h c (List.mem_cons_of_mem _ hc)
    cases x with
    | none =>
      simp only [createLoop, createStep, lastOfKind_cons_none]
      exact ih hrest sel
    | some c =>
      have hc : spec.recognized c.Type_ := h c (List.mem_cons_self _ _)
      simp only [createLoop, createStep, Type_, lastOfKind_cons_some]
      rcases hc with hc | hc | hc
      · simp only [hc, if_true]
        rw [ih hrest]
        have e1 : ¬ ("std" = "file") := by decide
        have e2 : ¬ ("std" = "report") := by decide
        simp only [e1, e2, if_false]
        cases spec.lastOfKind "std" rest <;> rfl
      · have e0 : ¬ ("file" = "std") := by decide
        have e2 : ¬ ("file" = "report") := by decide
        simp only [hc, if_true, e0, e2, if_false]
        rw [ih hrest]
        cases spec.lastOfKind "file" rest <;> rfl
      · have e0 : ¬ ("report" = "std") := by decide
        have e1 : ¬ ("report" = "file") := by decide
        simp only [hc, if_true, e0, e1, if_false]
        rw [ih hrest]
        cases spec.lastOfKind "report" rest <;> rfl

theorem createLoop_error (configs : List (Option Conf)) :
    ¬ spec.allRecognized configs → ∀ sel : Selected,
    createLoop sel configs = Except.error "Invalid Logger Type" := by
  induction configs with
  | nil =>
    intro h
    exact absurd (fun c hc => by simp at hc) h
  | cons x rest ih =>
    intro h sel
    cases x with
    | none =>
      simp only [createLoop, createStep]
      apply ih
      intro hrest
      apply h
      intro c hc
      rcases List.mem_cons.mp hc with hc1 | hc1
      · cases hc1
      · exact hrest c hc1
    | some c =>
      by_cases hc : spec.recognized c.Type_
      · have hrest : ¬ spec.allRecognized rest := by
          intro hrest
          apply h
          intro d hd
          rcases List.mem_cons.mp hd with hd1 | hd1
          · cases hd1
            exact hc
          · exact hrest d hd1
        simp only [createLoop, createStep, Type_]
        rcases hc with hc | hc | hc
        · simp only [hc, if_true]
          exact ih hrest _
        · have e0 : ¬ ("file" = "std") := by decide
          simp only [hc, if_true, e0, if_false]
          exact ih hrest _
        · have e0 : ¬ ("report" = "std") := by decide
          have e1 : ¬ ("report" = "file") := by decide
          simp only [hc, if_true, e0, e1, if_false]
          exact ih hrest _
      · have h0 : ¬ c.Type_ = "std" := fun e => hc (Or.inl e)
        have h1 : ¬ c.Type_ = "file" := fun e => hc (Or.inr (Or.inl e))
        have h2 : ¬ c.Type_ = "report" := fun e => hc (Or.inr (Or.inr e))
        simp only [createLoop, createStep, Type_, h0, h1, h2, if_false]

theorem create_ok (serverName : String) (configs : List (Option Conf))
    (h : spec.allRecognized configs) :
    create serverName configs = Except.ok
      (spec.loggerOver serverName (spec.lastOfKind "std" configs)
        (spec.lastOfKind "file" configs) (spec.lastOfKind "report" configs)) := by
  unfold create
  simp only [createLoop_ok configs h, spec.loggerOver, Option.or_none]

theorem create_error (serverName : String) (configs : List (Option Conf))
    (h : ¬ spec.allRecognized configs) :
    create serverName configs = Except.error "Invalid Logger Type" := by
  unfold create
  simp only [createLoop_error configs h]

end logger

namespace gormlogger

theorem loggerScan_skip (l : Log) (stack : List String) (pre rest : List Nat)
    (h : ∀ j ∈ pre, selectable stack j = false) :
    loggerScan l stack (pre ++ rest) = loggerScan l stack rest := by
  induction pre with
  | nil => rfl
  | cons j pre ih =>
    have hj : selectable stack j = false := h j (List.mem_cons_self _ _)
    have hpre : ∀ k ∈ pre, selectable stack k = false :=
      fun k hk => h k (List.mem_cons_of_mem _ hk)
    rw [List.cons_append, loggerScan]
    unfold selectable runtimeCaller gormPackage zapGormPackage at hj
    unfold runtimeCaller gormPackage zapGormPackage
    cases hg : stack.get? j with
    | none => exact ih hpre
    | some file =>
      rw [hg] at hj
      show (if HasSuffix file "_test.go" = true then loggerScan l stack (pre ++ rest)
        else if Contains file "gorm.io/gorm" = true then loggerScan l stack (pre ++ rest)
        else if Contains file "moul.io/zapgorm2" = true then loggerScan l stack (pre ++ rest)
        else l.ZapLogger.WithOptions_AddCallerSkip j) = loggerScan l stack rest
      by_cases h1 : HasSuffix file "_test.go" = true
      · rw [if_pos h1]
        exact ih hpre
      · by_cases h2 : Contains file "gorm.io/gorm" = true
        · rw [if_neg h1, if_pos h2]
          exact ih hpre
        · by_cases h3 : Contains file "moul.io/zapgorm2" = true
          · rw [if_neg h1, if_neg h2, if_pos h3]
            exact ih hpre
          · simp [h1, h2, h3] at hj

theorem loggerScan_hit (l : Log) (stack : List String) (i : Nat) (rest : List Nat)
    (h : selectable stack i = true) :
    loggerScan l stack (i :: rest) = l.ZapLogger.WithOptions_AddCallerSkip i := by
  rw [loggerScan]
  unfold selectable runtimeCaller gormPackage zapGormPackage at h
  unfold runtimeCaller gormPackage zapGormPackage
  cases hg : stack.get? i with
  | none => rw [hg] at h; simp at h
  | some file =>
    rw [hg] at h
    simp only [Bool.and_eq_true, Bool.not_eq_true_eq_eq_false] at h
    obtain ⟨⟨h1, h2⟩, h3⟩ := h
    simp [h1, h2, h3]

theorem loggerScan_congr (l : Log) (stack1 stack2 : List String) (idxs : List Nat)
    (h : ∀ i ∈ idxs, stack2.get? i = stack1.get? i) :
    loggerScan l stack2 idxs = loggerScan l stack1 idxs := by
  induction idxs with
  | nil => rfl
  | cons i rest ih =>
    have hi : stack2.get? i = stack1.get? i := h i (List.mem_cons_self _ _)
    have hrest : ∀ k ∈ rest, stack2.get? k = stack1.get? k :=
      fun k hk => h k (List.mem_cons_of_mem _ hk)
    simp only [loggerScan, runtimeCaller, hi, ih hrest]

end gormlogger

/-! ## The claims -/

namespace logger

/-- C1: for every service name and every triple of destination configs,
`getLogCore` builds its core list by appending, in the order console, file,
callback, the cascade of each enabled destination (a file config with an empty path
contributes nothing); in the file family the core with the filter for a level
writes to the file named for that level, and in the callback family it carries that
level's tag. -/
theorem getLogCore_cascade (serverName : String) (stdConf fileConf reportConf : Option Conf) :
    getLogCore serverName stdConf fileConf reportConf
      = (match stdConf with
          | none => []
          | some c => (spec.cascade c.Level).map spec.consoleCore)
        ++ (match fileConf with
          | none => []
          | some c =>
            if c.Path = "" then []
            else (spec.cascade c.Level).map (spec.fileCore serverName c.Path))
        ++ (match reportConf with
          | none => []
          | some c =>
            (spec.cascade c.Level).map
              (spec.callbackCore (c.CallBack.getD report.CallBack.noop))) :=
  getLogCore_eq serverName stdConf fileConf reportConf

/-- C2: for every enabled destination (of the family named by its encoder)
configured with level string L and every record severity S, any integer, exactly one
of the cores `getLogCore` installs for that destination accepts S when S is at least
the floor of L, and none accepts S otherwise. -/
theorem getLogCore_accepts_once (serverName : String)
    (stdConf fileConf reportConf : Option Conf) (family : Encoder) (c : Conf) (severity : Int)
    (h : spec.destination family stdConf fileConf reportConf = some c) :
    (spec.accepting family severity
        (getLogCore serverName stdConf fileConf reportConf)).length
      = if spec.floor c.Level ≤ severity then 1 else 0 :=
  accepting_length serverName stdConf fileConf reportConf family c severity h

/-- Witness of C2: a file destination at level "info" beside a console and a callback
destination, and a record of severity Warn. -/
theorem getLogCore_accepts_once_witness :
    (spec.accepting Encoder.getFileEncoder zapcore.WarnLevel
        (getLogCore "svc"
          (some { Level := "debug", Type_ := "std", Path := "", CallBack := none })
          (some { Level := "info", Type_ := "file", Path := "/var/log/", CallBack := none })
          (some { Level := "warn", Type_ := "report", Path := "",
                  CallBack := some (report.CallBack.user 1) }))).length
      = if spec.floor "info" ≤ zapcore.WarnLevel then 1 else 0 :=
  getLogCore_accepts_once "svc"
    (some { Level := "debug", Type_ := "std", Path := "", CallBack := none })
    (some { Level := "info", Type_ := "file", Path := "/var/log/", CallBack := none })
    (some { Level := "warn", Type_ := "report", Path := "",
            CallBack := some (report.CallBack.user 1) })
    Encoder.getFileEncoder
    { Level := "info", Type_ := "file", Path := "/var/log/", CallBack := none }
    zapcore.WarnLevel (by decide)

/-- C5: for every service name and every list of configs, `create` panics with
"Invalid Logger Type" if and only if the list contains a non-nil config whose kind
is not one of "std", "file", "report"; it yields a logger if and only if every
non-nil entry has a recognized kind; and it fails in no other way. -/
theorem create_panics_iff (serverName : String) (configs : List (Option Conf)) :
    (create serverName configs = Except.error "Invalid Logger Type"
        ↔ ∃ c : Conf, some c ∈ configs ∧ ¬ spec.recognized c.Type_)
    ∧ ((∃ lg : Logger, create serverName configs = Except.ok lg)
        ↔ ∀ c : Conf, some c ∈ configs → spec.recognized c.Type_)
    ∧ (∀ msg : String, create serverName configs = Except.error msg
        → msg = "Invalid Logger Type") := by
  by_cases h : spec.allRecognized configs
  · have hok := create_ok serverName configs h
    refine ⟨⟨?_, ?_⟩, ⟨fun _ => h, fun _ => ⟨_, hok⟩⟩, ?_⟩
    · intro he
      rw [hok] at he
      cases he
    · rintro ⟨c, hc, hn⟩
      exact absurd (h c hc) hn
    · intro msg he
      rw [hok] at he
      cases he
  · have herr := create_error serverName configs h
    refine ⟨⟨?_, fun _ => herr⟩, ⟨?_, fun h2 => absurd h2 h⟩, ?_⟩
    · intro _
      by_contra hne
      apply h
      intro c hc
      by_contra hr
      exact hne ⟨c, hc, hr⟩
    · rintro ⟨lg, hlg⟩
      rw [herr] at hlg
      cases hlg
    · intro msg he
      rw [herr] at he
      cases he
      rfl

/-- C6: for every list of configs whose non-nil entries all have a recognized kind,
the three configs `create` passes to `getLogCore` are, for each kind, the last
non-nil entry of that kind in the list (none when there is no such entry), so two
lists with the same last entries of each kind build the same logger. -/
theorem create_last_wins (serverName : String) (configs : List (Option Conf))
    (h : spec.allRecognized configs) :
    createLoop { stdConf := none, fileConf := none, reportConf := none } configs
      = Except.ok { stdConf := spec.lastOfKind "std" configs,
                    fileConf := spec.lastOfKind "file" configs,
                    reportConf := spec.lastOfKind "report" configs }
    ∧ create serverName configs
      = Except.ok
          { core := getLogCore (if serverName = "" then "server" else serverName)
              (spec.lastOfKind "std" configs) (spec.lastOfKind "file" configs)
              (spec.lastOfKind "report" configs),
            addCaller := true,
            fields := [("serverName", if serverName = "" then "server" else serverName)],
            callerSkip := 0 }
    ∧ (∀ others : List (Option Conf), spec.allRecognized others →
        spec.lastOfKind "std" others = spec.lastOfKind "std" configs →
        spec.lastOfKind "file" others = spec.lastOfKind "file" configs →
        spec.lastOfKind "report" others = spec.lastOfKind "report" configs →
        create serverName others = create serverName configs) := by
  refine ⟨?_, ?_, ?_⟩
  · rw [createLoop_ok configs h]
    simp only [Option.or_none]
  · rw [create_ok serverName configs h]
    rfl
  · intro others ho h1 h2 h3
    rw [create_ok serverName configs h, create_ok serverName others ho, h1, h2, h3]

/-- Witness of C6: two std entries, a nil entry and a file entry; the second std
entry is the one kept. -/
theorem create_last_wins_witness :
    create "svc"
        [some { Level := "debug", Type_ := "std", Path := "", CallBack := none },
         none,
         some { Level := "info", Type_ := "file", Path := "/var/log/", CallBack := none },
         some { Level := "warn", Type_ := "std", Path := "", CallBack := none }]
      = Except.ok
          { core := getLogCore "svc"
              (some { Level := "warn", Type_ := "std", Path := "", CallBack := none })
              (some { Level := "info", Type_ := "file", Path := "/var/log/", CallBack := none })
              none,
            addCaller := true,
            fields := [("serverName", "svc")],
            callerSkip := 0 } :=
  (create_last_wins "svc"
    [some { Level := "debug", Type_ := "std", Path := "", CallBack := none },
     none,
     some { Level := "info", Type_ := "file", Path := "/var/log/", CallBack := none },
     some { Level := "warn", Type_ := "std", Path := "", CallBack := none }]
    (by
      intro c hc
      simp only [List.mem_cons, Option.some.injEq, List.mem_singleton, List.mem_nil_iff,
        or_false] at hc
      rcases hc with hc | hc | hc | hc
      · subst hc; exact Or.inl rfl
      · cases hc
      · subst hc; exact Or.inr (Or.inl rfl)
      · subst hc; exact Or.inl rfl)).2.1

/-- C7: for every service name, the logger built by `NewDebug` with no additional
configs emits, for one call each at Debug, Info, Warn and Error, exactly one console
record per call (four in all); the one built by `NewWarn` emits none for the Debug
and Info calls and one each for the Warn and Error calls (two in all); the one built
by `NewError` emits one record, for the Error call. -/
theorem constructors_emit (serverName m1 m2 m3 m4 : String) :
    (∃ lg : Logger, NewDebug serverName [] = Except.ok lg
      ∧ lg.Debug m1 = [{ core := spec.consoleCore LevelEnabler.debugLevel,
                         level := zapcore.DebugLevel, msg := m1 }]
      ∧ lg.Info m2 = [{ core := spec.consoleCore LevelEnabler.infoLevel,
                        level := zapcore.InfoLevel, msg := m2 }]
      ∧ lg.Warn m3 = [{ core := spec.consoleCore LevelEnabler.warnLevel,
                        level := zapcore.WarnLevel, msg := m3 }]
      ∧ lg.Error m4 = [{ core := spec.consoleCore LevelEnabler.errorLevel,
                         level := zapcore.ErrorLevel, msg := m4 }]
      ∧ (lg.Debug m1 ++ lg.Info m2 ++ lg.Warn m3 ++ lg.Error m4).length = 4)
    ∧ (∃ lg : Logger, NewWarn serverName [] = Except.ok lg
      ∧ lg.Debug m1 = []
      ∧ lg.Info m2 = []
      ∧ lg.Warn m3 = [{ core := spec.consoleCore LevelEnabler.warnLevel,
                        level := zapcore.WarnLevel, msg := m3 }]
      ∧ lg.Error m4 = [{ core := spec.consoleCore LevelEnabler.errorLevel,
                         level := zapcore.ErrorLevel, msg := m4 }]
      ∧ (lg.Debug m1 ++ lg.Info m2 ++ lg.Warn m3 ++ lg.Error m4).length = 2)
    ∧ (∃ lg : Logger, NewError serverName [] = Except.ok lg
      ∧ lg.Debug m1 = []
      ∧ lg.Info m2 = []
      ∧ lg.Warn m3 = []
      ∧ lg.Error m4 = [{ core := spec.consoleCore LevelEnabler.errorLevel,
                         level := zapcore.ErrorLevel, msg := m4 }]
      ∧ (lg.Debug m1 ++ lg.Info m2 ++ lg.Warn m3 ++ lg.Error m4).length = 1) := by
  refine ⟨⟨_, rfl, ?_⟩, ⟨_, rfl, ?_⟩, ⟨_, rfl, ?_⟩⟩ <;>
    simp [Logger.Debug, Logger.Info, Logger.Warn, Logger.Error, Logger.log, getLogCore_eq,
      spec.consoleCores, spec.fileCores, spec.callbackCores, spec.cascade, spec.consoleCore,
      Level, LevelEnabler.Enabled, zapcore.DebugLevel, zapcore.InfoLevel, zapcore.WarnLevel,
      zapcore.ErrorLevel]

/-- C8, a defect of the code: the comment on `NewDebug` says the logger it creates
has its standard output at Debug level, and the claim says so whatever the additional
configs contain; but `NewDebug` given one additional std config at level "error"
returns a logger whose only console core is the Error-or-above one, so its console
destination is not at level Debug. -/
theorem NewDebug_std_override :
    NewDebug "svc" [some { Level := "error", Type_ := "std", Path := "", CallBack := none }]
      = Except.ok { core := [spec.consoleCore LevelEnabler.errorLevel],
                    addCaller := true,
                    fields := [("serverName", "svc")],
                    callerSkip := 0 }
    ∧ ¬ spec.consoleAt
        { core := [spec.consoleCore LevelEnabler.errorLevel],
          addCaller := true,
          fields := [("serverName", "svc")],
          callerSkip := 0 } "debug" := by
  refine ⟨by rfl, ?_⟩
  unfold spec.consoleAt
  decide

end logger

namespace gormlogger

theorem Trace_levels (l : Log) (stack : List String) (fileWithLineNum : String)
    (now begin : Int) (fc : String × Int) (err : Option GormErr) :
    (l.Trace stack fileWithLineNum now begin fc err).map (fun e => e.level)
      = (spec.traceRule l.LogLevel err.isSome (errorsIsRecordNotFound err)
          l.IgnoreRecordNotFoundError (timeSince now begin) l.SlowThreshold).toList := by
  have herr : (err ≠ none) = (err.isSome = true) := by
    cases err <;> simp
  unfold Log.Trace spec.traceRule
  simp only [herr, ge_iff_le, gt_iff_lt]
  by_cases hS : l.LogLevel ≤ gormLogger.Silent
  · simp [hS]
  · rw [if_neg hS, if_neg hS]
    by_cases hE : err.isSome = true ∧ gormLogger.Error ≤ l.LogLevel ∧
        (errorsIsRecordNotFound err = false ∨ l.IgnoreRecordNotFoundError = false)
    · have hE2 : err.isSome = true ∧ (errorsIsRecordNotFound err = false ∨
          l.IgnoreRecordNotFoundError = false) ∧ gormLogger.Error ≤ l.LogLevel :=
        ⟨hE.1, hE.2.2, hE.2.1⟩
      rw [if_pos hE, if_pos hE2]
      rfl
    · have hE2 : ¬ (err.isSome = true ∧ (errorsIsRecordNotFound err = false ∨
          l.IgnoreRecordNotFoundError = false) ∧ gormLogger.Error ≤ l.LogLevel) :=
        fun h => hE ⟨h.1, h.2.2, h.2.1⟩
      rw [if_neg hE, if_neg hE2]
      by_cases hW : l.SlowThreshold < timeSince now begin ∧ l.SlowThreshold ≠ 0 ∧
          gormLogger.Warn ≤ l.LogLevel
      · rw [if_pos hW, if_pos hW]
        rfl
      · rw [if_neg hW, if_neg hW]
        by_cases hI : l.LogLevel = gormLogger.Info
        · rw [if_pos hI, if_pos hI]
          rfl
        · rw [if_neg hI, if_neg hI]
          rfl

/-- C3: for every handle, start time, fetch result and error, `Trace` emits at most
one record, of the severity the first matching rule gives on the elapsed time
`time.Since(begin)` (nothing at level Silent or lower; else Error for an error that
is not a suppressed not-found, at level Error or more; else Warn for a slow query
with a non-zero threshold, at level Warn or more; else Info at level exactly Info;
else nothing). A suppressed not-found error yields no Error record, and a slow query
without error at level Warn or Info yields exactly one Warn record. -/
theorem Trace_first_rule (l : Log) (stack : List String) (fileWithLineNum : String)
    (now begin : Int) (fc : String × Int) (err : Option GormErr) :
    (l.Trace stack fileWithLineNum now begin fc err).length ≤ 1
    ∧ (l.Trace stack fileWithLineNum now begin fc err).map (fun e => e.level)
        = (spec.traceRule l.LogLevel err.isSome (errorsIsRecordNotFound err)
            l.IgnoreRecordNotFoundError (timeSince now begin) l.SlowThreshold).toList
    ∧ (errorsIsRecordNotFound err = true → l.IgnoreRecordNotFoundError = true →
        ∀ e ∈ l.Trace stack fileWithLineNum now begin fc err, e.level ≠ zapcore.ErrorLevel)
    ∧ (err = none → timeSince now begin > l.SlowThreshold → l.SlowThreshold ≠ 0 →
        (l.LogLevel = gormLogger.Warn ∨ l.LogLevel = gormLogger.Info) →
        (l.Trace stack fileWithLineNum now begin fc err).map (fun e => e.level)
          = [zapcore.WarnLevel]) := by
  have hlv := Trace_levels l stack fileWithLineNum now begin fc err
  refine ⟨?_, hlv, ?_, ?_⟩
  · have hlen := congrArg List.length hlv
    rw [List.length_map] at hlen
    rw [hlen]
    cases spec.traceRule l.LogLevel err.isSome (errorsIsRecordNotFound err)
      l.IgnoreRecordNotFoundError (timeSince now begin) l.SlowThreshold <;> simp
  · intro h1 h2 e he
    have hmem : e.level ∈ (l.Trace stack fileWithLineNum now begin fc err).map
        (fun e => e.level) := List.mem_map_of_mem (fun e => e.level) he
    rw [hlv, h1, h2] at hmem
    unfold spec.traceRule at hmem
    intro hbad
    rw [hbad] at hmem
    split_ifs at hmem with a b c d
    · simp at hmem
    · simp at b
    · simp [zapcore.ErrorLevel, zapcore.WarnLevel] at hmem
    · simp [zapcore.ErrorLevel, zapcore.InfoLevel] at hmem
    · simp at hmem
  · intro h1 h2 h3 h4
    rw [hlv]
    subst h1
    have hs : ¬ l.LogLevel ≤ gormLogger.Silent := by
      unfold gormLogger.Silent
      unfold gormLogger.Warn gormLogger.Info at h4
      omega
    have hw : gormLogger.Warn ≤ l.LogLevel := by
      unfold gormLogger.Warn
      unfold gormLogger.Warn gormLogger.Info at h4
      omega
    simp [spec.traceRule, hs, h2, h3, hw]

/-- Witness of C3: a handle at level Info with a three-second threshold and no error,
the start time so far back that the elapsed time saturates at the largest duration;
one Warn record is emitted. -/
theorem Trace_first_rule_witness :
    ((spec.sampleHandle gormLogger.Info).Trace [] "main.go:10" 0 (-60000000000000000000)
        ("SELECT 1", 1) none).map (fun e => e.level)
      = [zapcore.WarnLevel] :=
  (Trace_first_rule (spec.sampleHandle gormLogger.Info) [] "main.go:10" 0
    (-60000000000000000000) ("SELECT 1", 1) none).2.2.2 rfl (by decide) (by decide)
    (Or.inr rfl)

/-- The elapsed time saturates: with the threshold at the largest duration no query is
slow, however far back the start time lies, and a handle at level Info emits an Info
record. -/
theorem Trace_saturated_threshold :
    (Log.Trace
        { ZapLogger := { core := [], addCaller := true, fields := [], callerSkip := 0 },
          LogLevel := gormLogger.Info,
          SlowThreshold := maxDuration,
          SkipCallerLookup := false,
          IgnoreRecordNotFoundError := true }
        [] "main.go:10" 0 (-60000000000000000000) ("SELECT 1", 1) none).map
        (fun e => e.level)
      = [zapcore.InfoLevel] := by
  decide

/-- C9: for every memory, whose receiver variable holds the handle h, and every level
v, the call `h.LogMode(v)` returns a value whose `LogLevel` is v and whose
`ZapLogger` (the same pointer), `SlowThreshold`, `SkipCallerLookup` and
`IgnoreRecordNotFoundError` are those of h, and leaves the memory as it was: the
variable h, the zap loggers on the heap and `gormLogger.Default` are unchanged, so the
handle read from h after the call is the one read before it and every call of `Info`,
`Warn`, `Error` and `Trace` on it gives what it gave before. The returned value read
from memory is the pure `Log.LogMode` of h, whose fields are likewise v and those
of h. -/
theorem LogMode_frame (m : Memory) (v : Int) :
    (LogMode_step m v).1.LogLevel = v
    ∧ (LogMode_step m v).1.ZapLogger = m.receiver.ZapLogger
    ∧ (LogMode_step m v).1.SlowThreshold = m.receiver.SlowThreshold
    ∧ (LogMode_step m v).1.SkipCallerLookup = m.receiver.SkipCallerLookup
    ∧ (LogMode_step m v).1.IgnoreRecordNotFoundError = m.receiver.IgnoreRecordNotFoundError
    ∧ (LogMode_step m v).2.receiver = m.receiver
    ∧ (LogMode_step m v).2.heap = m.heap
    ∧ (LogMode_step m v).2.Default = m.Default
    ∧ (LogMode_step m v).2.load (LogMode_step m v).2.receiver = m.load m.receiver
    ∧ (∀ (stack : List String) (fileWithLineNum str : String) (args : List String)
        (now begin : Int) (fc : String × Int) (err : Option GormErr),
        ((LogMode_step m v).2.load (LogMode_step m v).2.receiver).map
            (fun h => h.Info stack fileWithLineNum str args)
          = (m.load m.receiver).map (fun h => h.Info stack fileWithLineNum str args)
        ∧ ((LogMode_step m v).2.load (LogMode_step m v).2.receiver).map
            (fun h => h.Warn stack fileWithLineNum str args)
          = (m.load m.receiver).map (fun h => h.Warn stack fileWithLineNum str args)
        ∧ ((LogMode_step m v).2.load (LogMode_step m v).2.receiver).map
            (fun h => h.Error stack fileWithLineNum str args)
          = (m.load m.receiver).map (fun h => h.Error stack fileWithLineNum str args)
        ∧ ((LogMode_step m v).2.load (LogMode_step m v).2.receiver).map
            (fun h => h.Trace stack fileWithLineNum now begin fc err)
          = (m.load m.receiver).map
              (fun h => h.Trace stack fileWithLineNum now begin fc err))
    ∧ (LogMode_step m v).2.load (LogMode_step m v).1
        = (m.load m.receiver).map (fun h => h.LogMode v)
    ∧ (∀ h : Log,
        (h.LogMode v).LogLevel = v
        ∧ (h.LogMode v).ZapLogger = h.ZapLogger
        ∧ (h.LogMode v).SlowThreshold = h.SlowThreshold
        ∧ (h.LogMode v).SkipCallerLookup = h.SkipCallerLookup
        ∧ (h.LogMode v).IgnoreRecordNotFoundError = h.IgnoreRecordNotFoundError) := by
  have hmem : (LogMode_step m v).2 = m := rfl
  refine ⟨rfl, rfl, rfl, rfl, rfl, ?_, ?_, ?_, ?_, ?_, ?_, ?_⟩
  · rw [hmem]
  · rw [hmem]
  · rw [hmem]
  · rw [hmem]
  · intro stack fileWithLineNum str args now begin fc err
    rw [hmem]
    exact ⟨rfl, rfl, rfl, rfl⟩
  · rw [hmem]
    unfold Memory.load LogMode_step
    cases m.heap.get? m.receiver.ZapLogger <;> rfl
  · intro h
    exact ⟨rfl, rfl, rfl, rfl, rfl⟩

/-- C10: for every handle, the verb `Info` emits exactly one Info record if the
handle level is at least Info and nothing otherwise, `Warn` one Warn record if it is
at least Warn, `Error` one Error record if it is at least Error; a handle at level
Info emits for all three verbs, a verb that emits at a level emits at every more
verbose level, and a handle at level Silent emits nothing through `Info`, `Warn`,
`Error` or `Trace`. -/
theorem verbs_emit_iff (l : Log) (stack : List String) (fileWithLineNum str : String)
    (args : List String) (now begin : Int) (fc : String × Int) (err : Option GormErr) :
    ((l.Info stack fileWithLineNum str args).map (fun e => e.level)
        = if gormLogger.Info ≤ l.LogLevel then [zapcore.InfoLevel] else [])
    ∧ ((l.Warn stack fileWithLineNum str args).map (fun e => e.level)
        = if gormLogger.Warn ≤ l.LogLevel then [zapcore.WarnLevel] else [])
    ∧ ((l.Error stack fileWithLineNum str args).map (fun e => e.level)
        = if gormLogger.Error ≤ l.LogLevel then [zapcore.ErrorLevel] else [])
    ∧ (l.LogLevel = gormLogger.Info →
        (l.Info stack fileWithLineNum str args).length = 1
        ∧ (l.Warn stack fileWithLineNum str args).length = 1
        ∧ (l.Error stack fileWithLineNum str args).length = 1)
    ∧ (∀ v : Int, l.LogLevel ≤ v →
        (l.Info stack fileWithLineNum str args).length
          ≤ ((l.LogMode v).Info stack fileWithLineNum str args).length
        ∧ (l.Warn stack fileWithLineNum str args).length
          ≤ ((l.LogMode v).Warn stack fileWithLineNum str args).length
        ∧ (l.Error stack fileWithLineNum str args).length
          ≤ ((l.LogMode v).Error stack fileWithLineNum str args).length)
    ∧ (l.LogLevel = gormLogger.Silent →
        l.Info stack fileWithLineNum str args = []
        ∧ l.Warn stack fileWithLineNum str args = []
        ∧ l.Error stack fileWithLineNum str args = []
        ∧ l.Trace stack fileWithLineNum now begin fc err = []) := by
  refine ⟨?_, ?_, ?_, ?_, ?_, ?_⟩
  · unfold Log.Info
    simp only [ge_iff_le]
    split_ifs <;> rfl
  · unfold Log.Warn
    simp only [ge_iff_le]
    split_ifs <;> rfl
  · unfold Log.Error
    simp only [ge_iff_le]
    split_ifs <;> rfl
  · intro h
    simp [Log.Info, Log.Warn, Log.Error, h, gormLogger.Info, gormLogger.Warn, gormLogger.Error]
  · intro v hv
    simp only [Log.Info, Log.Warn, Log.Error, Log.LogMode, ge_iff_le, gormLogger.Info,
      gormLogger.Warn, gormLogger.Error]
    refine ⟨?_, ?_, ?_⟩ <;> split_ifs <;> simp <;> omega
  · intro h
    simp [Log.Info, Log.Warn, Log.Error, Log.Trace, h, gormLogger.Info, gormLogger.Warn,
      gormLogger.Error, gormLogger.Silent]

/-- Witness of C10: a handle at level Silent emits nothing through the four verbs. -/
theorem verbs_emit_iff_witness :
    (spec.sampleHandle gormLogger.Silent).Info [] "main.go:10" "hello" [] = []
    ∧ (spec.sampleHandle gormLogger.Silent).Warn [] "main.go:10" "hello" [] = []
    ∧ (spec.sampleHandle gormLogger.Silent).Error [] "main.go:10" "hello" [] = []
    ∧ (spec.sampleHandle gormLogger.Silent).Trace [] "main.go:10" 5000000000 0
        ("SELECT 1", 1) none = [] :=
  (verbs_emit_iff (spec.sampleHandle gormLogger.Silent) [] "main.go:10" "hello" []
    5000000000 0 ("SELECT 1", 1) none).2.2.2.2.2 rfl

theorem logger_hit (l : Log) (stack : List String) (i : Nat) (h2 : 2 ≤ i) (h15 : i < 15)
    (hsel : selectable stack i = true)
    (hbefore : ∀ j : Nat, 2 ≤ j → j < i → selectable stack j = false) :
    l.logger stack = l.ZapLogger.WithOptions_AddCallerSkip i := by
  have hsplit : List.range' 2 13
      = List.range' 2 (i - 2) ++ (i :: List.range' (i + 1) (14 - i)) := by
    have e1 : 13 = (14 - i + 1) + (i - 2) := by omega
    have e2 : i = 2 + (i - 2) := by omega
    rw [e1, ← List.range'_append_1, List.range'_succ, ← e2]
  unfold Log.logger
  rw [hsplit, loggerScan_skip, loggerScan_hit l stack i _ hsel]
  intro j hj
  rw [List.mem_range'_1] at hj
  exact hbefore j hj.1 (by omega)

/-- The selection `Log.logger` makes: it consults only the frames of index 2 to 14 and
adds to the caller skip the first such index whose frame is present and whose file
neither ends in `_test.go` nor contains `gorm.io/gorm` nor `moul.io/zapgorm2`; when no
scanned frame passes it returns the logger as it is. -/
theorem logger_selection (l : Log) (stack : List String) :
    (∀ i : Nat, 2 ≤ i → i < 15 → selectable stack i = true →
        (∀ j : Nat, 2 ≤ j → j < i → selectable stack j = false) →
        l.logger stack = l.ZapLogger.WithOptions_AddCallerSkip i)
    ∧ ((∀ i : Nat, 2 ≤ i → i < 15 → selectable stack i = false) →
        l.logger stack = l.ZapLogger)
    ∧ (∀ other : List String,
        (∀ i : Nat, 2 ≤ i → i < 15 → other.get? i = stack.get? i) →
        l.logger other = l.logger stack)
    ∧ (selectable stack 2 = false → selectable stack 3 = true →
        l.logger stack = l.ZapLogger.WithOptions_AddCallerSkip 3) := by
  refine ⟨logger_hit l stack, ?_, ?_, ?_⟩
  · intro hnone
    unfold Log.logger
    have h := loggerScan_skip l stack (List.range' 2 13) [] (by
      intro j hj
      rw [List.mem_range'_1] at hj
      exact hnone j hj.1 (by omega))
    rw [List.append_nil] at h
    rw [h]
    rfl
  · intro other hsame
    unfold Log.logger
    apply loggerScan_congr
    intro i hi
    rw [List.mem_range'_1] at hi
    exact hsame i hi.1 (by omega)
  · intro h2 h3
    apply logger_hit l stack 3 (by omega) (by omega) h3
    intro j hj2 hj3
    have hj : j = 2 := by omega
    rw [hj]
    exact h2

/-- C4, a defect of the code: on a stack of five frames whose frames 0 to 2 are the
adapter and the gorm package and whose frame 3 is application code, `Log.logger`
selects index 3, the first scanned frame that is not internal, as the claim says, but
it hands that index to `zap.AddCallerSkip` as it is. Zap counts the skip from the
verb that calls it, which is frame 1, so the record is annotated with frame 4, the
runtime frame above the application, and not with frame 3. The same holds of the
stack of a query issued through gorm, where index 4 is selected and frame 5
annotated. -/
theorem logger_annotates_frame_above :
    selectable spec.gormStack 2 = false
    ∧ selectable spec.gormStack 3 = true
    ∧ runtimeCaller spec.gormStack 3 = some "/app/main.go"
    ∧ (spec.sampleHandle gormLogger.Info).logger spec.gormStack
        = (spec.sampleHandle gormLogger.Info).ZapLogger.WithOptions_AddCallerSkip 3
    ∧ annotatedFrame spec.gormStack
          ((spec.sampleHandle gormLogger.Info).logger spec.gormStack)
        = some "/usr/local/go/src/runtime/proc.go"
    ∧ annotatedFrame spec.gormStack
          ((spec.sampleHandle gormLogger.Info).logger spec.gormStack)
        ≠ runtimeCaller spec.gormStack 3
    ∧ runtimeCaller spec.queryStack 4 = some "/app/main.go"
    ∧ (spec.sampleHandle gormLogger.Info).logger spec.queryStack
        = (spec.sampleHandle gormLogger.Info).ZapLogger.WithOptions_AddCallerSkip 4
    ∧ annotatedFrame spec.queryStack
          ((spec.sampleHandle gormLogger.Info).logger spec.queryStack)
        = some "/usr/local/go/src/runtime/proc.go" := by
  refine ⟨by decide, by decide, by decide, by decide, by decide, by decide, by decide,
    by decide, by decide⟩

end gormlogger

end BlackZap
